import Mathlib

/-!
Verification of the web tier of the spiderfoot-fastapi fork.

This file gives a shallow embedding of the data-access layer
(`src/spiderfoot/db.py`) and of the JSON API handlers
(`src/domain/api/api_router.py`, `src/utils/http_util.py`) that the
claims refer to, and proves or refutes each claim.

Modelling conventions:
* SQLite tables are lists of record rows in insertion order; queries are
  filters over those lists (a nested-loop join over the row lists).
* Python dicts are association lists in insertion order with unique keys;
  `dict.pop` removes the key, assignment of an existing key keeps its
  position.
* Python floats appear only in zero tests here and are modelled as `Rat`.
* Raising an exception is modelled by returning the pre-call state paired
  with `some error`, or by `Except.error`.
* Python `list.sort()` is a stable ascending sort by code points; it is
  modelled by `List.insertionSort` (stable) over the code-point order.
-/

/-- Python `str.isalnum()`: non-empty and all characters alphanumeric. -/
def pyIsAlnum (s : String) : Bool :=
  !s.isEmpty && s.data.all Char.isAlphanum

/-- Splits a char list at every occurrence of `c`, as Python `str.split`. -/
def splitOnChar (c : Char) : List Char → List (List Char)
  | [] => [[]]
  | x :: xs =>
    if x = c then [] :: splitOnChar c xs
    else
      match splitOnChar c xs with
      | [] => [[x]]
      | h :: t => (x :: h) :: t

/-- ASCII whitespace stripped by Python `str.strip()`. -/
def isPySpace (c : Char) : Bool :=
  c = ' ' || c = '\t' || c = '\n' || c = '\r' || c = '\x0b' || c = '\x0c'

/-- Python `str.strip()`. -/
def pyStrip (s : String) : String :=
  String.mk (((s.data.dropWhile isPySpace).reverse.dropWhile isPySpace).reverse)

/-- Python `[i.strip() for i in s.split(',') if i.strip()]`. -/
def pyStripSplit (s : String) : List String :=
  ((((splitOnChar ',' s.data).map String.mk).filter
    (fun t => pyStrip t ≠ ""))).map pyStrip

/-- Code-point comparison of strings, as Python string `<=` compares. -/
def strLeB : List Char → List Char → Bool
  | [], _ => true
  | _ :: _, [] => false
  | a :: as, b :: bs =>
    if a.toNat < b.toNat then true
    else if b.toNat < a.toNat then false
    else strLeB as bs

/-- String order used by Python `list.sort()` on module names. -/
def pyStrLe (a b : String) : Prop := strLeB a.data b.data = true

instance : DecidableRel pyStrLe := fun a b => by
  unfold pyStrLe; infer_instance

/-- Python `list.sort()`: a stable ascending sort. -/
def pySort (l : List String) : List String :=
  l.insertionSort pyStrLe

/- ===================== 4.11 HTTP middleware utility ===================== -/

/-- Allowlisted paths of `should_run_middleware` (src/utils/http_util.py). -/
def allowlistPaths : List String :=
  ["/", "/login", "/register", "/docs", "/share", "/openapi.json"]

/-- Embedding of `should_run_middleware` (src/utils/http_util.py): reads the
request path and method; the allowlisted branch returns `False`, and so does
the fall-through branch. -/
def should_run_middleware (path method : String) : Bool :=
  let _ := method
  if path ∈ allowlistPaths then false
  else false

/- ===================== SpiderFootDb.search ===================== -/

/-- A Python value held in the `criteria` dict: a string, or anything else. -/
inductive PyVal where
  | str (s : String)
  | nonStr
deriving DecidableEq, Repr

/-- The `criteria` dict of `SpiderFootDb.search`, in insertion order. -/
abbrev Criteria := List (String × PyVal)

/-- Python `criteria.get(key)`. -/
def dictGet (d : Criteria) (k : String) : Option PyVal :=
  (d.find? (fun p => p.1 = k)).map Prod.snd

/-- Python `criteria.pop(key, None)`: removes the key (unique in a dict). -/
def dictPop (d : Criteria) (k : String) : Criteria :=
  d.filter (fun p => p.1 ≠ k)

/-- The `valid_criteria` list of `SpiderFootDb.search`. -/
def validCriteria : List String := ["scan_id", "type", "value", "regex"]

/-- Errors `SpiderFootDb.search` can raise before reaching the store. -/
inductive SearchErr where
  /-- TypeError: a recognized criteria value is not a `str` (also when the
  key is absent by the time `criteria.get` runs, which cannot happen for a
  dict snapshot with unique keys). -/
  | typeErr
  /-- ValueError: no valid search criteria provided. -/
  | noCriteria
  /-- ValueError: only one search criteria provided. -/
  | oneCriterion
  /-- NameError: the query phase executes `self.dbh.execute(qry, params)`
  but only `qry_str` was ever assigned; the local name `qry` is unbound. -/
  | nameErrQry
deriving DecidableEq, Repr

/-- The `for key in list(criteria.keys())` filtering loop of
`SpiderFootDb.search` (db.py lines 182-192): takes the key snapshot and the
current dict, returns the dict at loop exit (or at the raise) and the raised
error if any. -/
def searchFilterGo : List String → Criteria → Criteria × Option SearchErr
  | [], d => (d, none)
  | k :: ks, d =>
    if k ∈ validCriteria then
      match dictGet d k with
      | some (PyVal.str v) =>
        if v = "" then searchFilterGo ks (dictPop d k)
        else searchFilterGo ks d
      | _ => (d, some SearchErr.typeErr)
    else searchFilterGo ks (dictPop d k)

/-- Embedding of `SpiderFootDb.search` (db.py lines 157-251): returns the
caller's criteria dict after the call together with the raised error.  After
the filtering loop the code raises ValueError on fewer than two surviving
criteria; otherwise it builds `qry_str` and then executes the unbound local
name `qry`, raising NameError, so no path returns rows and the store is
never queried. -/
def searchRun (criteria : Criteria) : Criteria × Option SearchErr :=
  match searchFilterGo (criteria.map Prod.fst) criteria with
  | (d, some e) => (d, some e)
  | (d, none) =>
    if d.length = 0 then (d, some SearchErr.noCriteria)
    else if d.length = 1 then (d, some SearchErr.oneCriterion)
    else (d, some SearchErr.nameErrQry)

/-- Surviving criteria: recognized keys with non-empty string values. -/
def criteriaSurvivor (p : String × PyVal) : Bool :=
  decide (p.1 ∈ validCriteria) && p.2 ≠ PyVal.str ""

/-- Pairs kept by the filtering loop, relative to the key snapshot `ks`:
keys outside the snapshot are untouched, snapshot keys survive exactly when
recognized with a non-empty string value. -/
def keepPred (ks : List String) (p : String × PyVal) : Bool :=
  decide (p.1 ∉ ks) || criteriaSurvivor p

/-- Whether an optional criteria value is a string. -/
def isStrOpt : Option PyVal → Bool
  | some (PyVal.str _) => true
  | _ => false

/- ===================== database state ===================== -/

/-- A row of `tbl_scan_instance` (models/scan_instance.py).  The tuple
returned by `scanInstanceGet` is (name, seed_target, created, started,
ended, status); its index 5 is `status`. -/
structure ScanRow where
  guid : String
  name : String
  seed_target : String
  created : Int
  started : Int
  ended : Int
  status : String
deriving DecidableEq, Repr

/-- A row of `tbl_scan_results` (models/scan_results.py). -/
structure ResultRow where
  scan_instance_id : String
  hash : String
  type : String
  generated : Rat
  confidence : Int
  visibility : Int
  risk : Int
  module : String
  data : String
  source_event_hash : String
  false_positive : Int
deriving DecidableEq, Repr

/-- A row of `tbl_scan_log` (models/scan_log.py). -/
structure LogRow where
  scan_instance_id : String
  generated : Int
  component : String
  type : String
  message : String
deriving DecidableEq, Repr

/-- A row of `tbl_config` (models/config.py): composite key (scope, opt). -/
structure CfgRow where
  scope : String
  opt : String
  val : String
deriving DecidableEq, Repr

/-- The embedded relational store: tables as row lists in insertion order.
`eventTypes` holds the event codes of `tbl_event_types` (joins against the
catalog keep only rows whose type is a known code). -/
structure DbState where
  scans : List ScanRow
  results : List ResultRow
  logs : List LogRow
  config : List CfgRow
  eventTypes : List String
deriving DecidableEq, Repr

/- ===================== scanInstance operations ===================== -/

/-- Embedding of `SpiderFootDb.scanInstanceGet` (db.py lines 448-485):
`one_or_none` over `guid = instanceId`; with unique guids this is the first
matching row, `none` for an unknown id. -/
def scanInstanceGet (st : DbState) (instanceId : String) : Option ScanRow :=
  st.scans.find? (fun r => r.guid = instanceId)

/-- Embedding of `SpiderFootDb.scanInstanceSet` with only `status` supplied
(db.py lines 411-446): updates the status of every row with this guid. -/
def scanInstanceSetStatus (st : DbState) (instanceId status : String) : DbState :=
  { st with scans := st.scans.map (fun r =>
      if r.guid = instanceId then { r with status := status } else r) }

/- ===================== scanErrors ===================== -/

/-- Descending order on log timestamps (`ORDER BY generated DESC`). -/
def logGeDesc (a b : LogRow) : Prop := b.generated ≤ a.generated

instance : DecidableRel logGeDesc := fun a b => by
  unfold logGeDesc; infer_instance

/-- Embedding of `SpiderFootDb.scanErrors` (db.py lines 849-888): selects the
scan's log rows of type "ERROR", newest first.  Since `limit` is an `int` it
is never `None`, so the code appends `LIMIT :limit` unconditionally; SQLite
returns no rows for `LIMIT 0` and all rows for a negative limit. -/
def scanErrors (st : DbState) (instanceId : String) (limit : Int) : List LogRow :=
  let rows := (st.logs.filter (fun l =>
      l.scan_instance_id == instanceId && l.type == "ERROR")).insertionSort logGeDesc
  if limit < 0 then rows else rows.take limit.toNat

/-- The error-log rows of a scan (what "all log rows of type ERROR" means). -/
def errorLogRows (st : DbState) (instanceId : String) : List LogRow :=
  st.logs.filter (fun l => l.scan_instance_id == instanceId && l.type == "ERROR")

/- ===================== scanEventStore ===================== -/

/-- The in-memory finding object handed to `scanEventStore`.  The dynamic
`isinstance` checks of the source vanish in this typed embedding, except the
`sourceEvent` one, kept as the flag `sourceEventPresent`. -/
structure SFEvent where
  generated : Rat
  eventType : String
  data : String
  module : String
  confidence : Int
  visibility : Int
  risk : Int
  sourceEventPresent : Bool
  sourceEventHash : String
  hash : String
deriving DecidableEq, Repr

/-- Input-validation errors of `scanEventStore` (field that failed). -/
inductive StoreErr where
  | valueErr (field : String)
  | typeErr (field : String)
deriving DecidableEq, Repr

/-- The validation chain of `SpiderFootDb.scanEventStore` (db.py lines
1144-1202) in source order: the first violated check gives the raised
error, `none` means every check passed. -/
def eventStoreErr (instanceId : String) (ev : SFEvent) : Option StoreErr :=
  if instanceId = "" then some (StoreErr.valueErr "instanceId")
  else if ev.generated = 0 then some (StoreErr.valueErr "generated")
  else if ev.eventType = "" then some (StoreErr.valueErr "eventType")
  else if ev.data = "" then some (StoreErr.valueErr "data")
  else if ev.module = "" ∧ ev.eventType ≠ "ROOT" then
    some (StoreErr.valueErr "module")
  else if ¬(0 ≤ ev.confidence ∧ ev.confidence ≤ 100) then
    some (StoreErr.valueErr "confidence")
  else if ¬(0 ≤ ev.visibility ∧ ev.visibility ≤ 100) then
    some (StoreErr.valueErr "visibility")
  else if ¬(0 ≤ ev.risk ∧ ev.risk ≤ 100) then
    some (StoreErr.valueErr "risk")
  else if ¬ev.sourceEventPresent ∧ ev.eventType ≠ "ROOT" then
    some (StoreErr.typeErr "sourceEvent")
  else if ev.sourceEventHash = "" then
    some (StoreErr.valueErr "sourceEventHash")
  else none

/-- The result row inserted by `scanEventStore` on success (db.py lines
1204-1222): `data` truncated to `truncateSize` characters when
`truncateSize > 0`, `false_positive` left at the column default 0. -/
def eventStoreRow (instanceId : String) (ev : SFEvent)
    (truncateSize : Int) : ResultRow :=
  { scan_instance_id := instanceId
    hash := ev.hash
    type := ev.eventType
    generated := ev.generated
    confidence := ev.confidence
    visibility := ev.visibility
    risk := ev.risk
    module := ev.module
    data := if truncateSize > 0 then ev.data.take truncateSize.toNat else ev.data
    source_event_hash := ev.sourceEventHash
    false_positive := 0 }

/-- Embedding of `SpiderFootDb.scanEventStore` (db.py lines 1129-1230):
every validation violation raises before the insert, so the returned state
is the input state; otherwise the new row is appended. -/
def scanEventStore (st : DbState) (instanceId : String) (ev : SFEvent)
    (truncateSize : Int) : DbState × Option StoreErr :=
  match eventStoreErr instanceId ev with
  | some e => (st, some e)
  | none =>
    ({ st with results := st.results ++ [eventStoreRow instanceId ev truncateSize] },
      none)

/-- The invalid-field conditions enumerated by the claim on `scanEventStore`. -/
def invalidEventField (ev : SFEvent) : Prop :=
  ¬(0 ≤ ev.confidence ∧ ev.confidence ≤ 100) ∨
  ¬(0 ≤ ev.visibility ∧ ev.visibility ≤ 100) ∨
  ¬(0 ≤ ev.risk ∧ ev.risk ≤ 100) ∨
  ev.data = "" ∨ ev.eventType = "" ∨
  (ev.module = "" ∧ ev.eventType ≠ "ROOT") ∨
  ev.sourceEventHash = "" ∨
  ev.generated = 0

/- ===================== configSet / configGet ===================== -/

/-- Key-to-row translation of `configSet` (db.py lines 996-1003): a key
containing a colon is split on every colon and only `parts[0]`/`parts[1]`
are kept as (scope, opt); otherwise scope is "GLOBAL". -/
def storeKey (k : String) : String × String :=
  if k.data.contains ':' then
    let parts := splitOnChar ':' k.data
    (String.mk (parts.headD []), String.mk ((parts.drop 1).headD []))
  else ("GLOBAL", k)

/-- Key reconstruction of `configGet` (db.py lines 1032-1035). -/
def loadKey (scope opt : String) : String :=
  if scope = "GLOBAL" then opt else scope ++ ":" ++ opt

/-- `session.merge` on the (scope, opt) composite key: updates the matching
row in place or appends a fresh row. -/
def cfgMerge (t : List CfgRow) (scope opt val : String) : List CfgRow :=
  if t.any (fun r => r.scope == scope && r.opt == opt) then
    t.map (fun r => if r.scope = scope ∧ r.opt = opt then { r with val := val } else r)
  else t ++ [{ scope := scope, opt := opt, val := val }]

/-- Embedding of `SpiderFootDb.configSet` (db.py lines 974-1010): raises
ValueError on an empty map, otherwise merges each option row. -/
def configSet (t : List CfgRow) (optMap : List (String × String)) :
    Except String (List CfgRow) :=
  if optMap = [] then Except.error "optMap is empty"
  else Except.ok (optMap.foldl (fun acc kv =>
    cfgMerge acc (storeKey kv.1).1 (storeKey kv.1).2 kv.2) t)

/-- Python dict assignment `d[k] = v`: overwrite in place or append. -/
def dictPut (d : List (String × String)) (k v : String) : List (String × String) :=
  if d.any (fun p => p.1 == k) then
    d.map (fun p => if p.1 = k then (k, v) else p)
  else d ++ [(k, v)]

/-- Embedding of `SpiderFootDb.configGet` (db.py lines 1012-1038): walks the
config rows in table order rebuilding the key of each. -/
def configGet (t : List CfgRow) : List (String × String) :=
  t.foldl (fun d r => dictPut d (loadKey r.scope r.opt) r.val) []

/-- A key for which the split/reconstruct convention is lossless: at most
one colon, and a colon key does not use the reserved scope "GLOBAL". -/
def losslessKey (k : String) : Prop :=
  ':' ∉ k.data ∨
  ∃ a b, k.data = a ++ ':' :: b ∧ ':' ∉ a ∧ ':' ∉ b ∧ String.mk a ≠ "GLOBAL"

/- ===================== element traversal and resultsetfp ===================== -/

/-- Hash pre-filtering of the element lookups (db.py lines 1331-1337 and
1407-1413): empty and non-alphanumeric tokens are dropped. -/
def filterHashIds (l : List String) : List String :=
  l.filter (fun h => h != "" && pyIsAlnum h)

/-- Embedding of `SpiderFootDb.scanElementChildrenDirect` (db.py lines
1386-1455): the join rows `c` whose parent hash is in the (filtered) id
list, within the scan, with the parent row and the event-type catalog
joined.  Unlike `scanElementSourcesDirect` there is no empty-input early
return: an empty filtered id list renders `IN ()`, a SQLite syntax error,
raised as IOError. -/
def scanElementChildrenDirect (st : DbState) (instanceId : String)
    (elementIdList : List String) : Except String (List ResultRow) :=
  let hashIds := filterHashIds elementIdList
  if hashIds = [] then Except.error "SQL error: empty IN clause"
  else Except.ok (st.results.filter (fun c =>
    c.scan_instance_id == instanceId &&
    hashIds.contains c.source_event_hash &&
    st.results.any (fun s =>
      s.hash == c.source_event_hash && s.scan_instance_id == c.scan_instance_id) &&
    st.eventTypes.contains c.type))

/-- Embedding of `SpiderFootDb.scanElementSourcesDirect` (db.py lines
1310-1384): (child, parent) join pairs for the given child hashes; returns
`[]` without querying when the filtered id list is empty.  Index 14 of a
source row is `s.false_positive`, here the `parent` component. -/
def scanElementSourcesDirect (st : DbState) (instanceId : String)
    (elementIdList : List String) : List (ResultRow × ResultRow) :=
  let hashIds := filterHashIds elementIdList
  if hashIds = [] then []
  else
    (st.results.filter (fun c =>
        c.scan_instance_id == instanceId && hashIds.contains c.hash &&
        st.eventTypes.contains c.type)).flatMap (fun c =>
      (st.results.filter (fun s =>
          s.hash == c.source_event_hash &&
          s.scan_instance_id == c.scan_instance_id &&
          st.eventTypes.contains s.type)).map (fun s => (c, s)))

/-- The `while keepGoing` loop of `scanElementChildrenAll` (db.py lines
1563-1573).  The body appends every fetched child hash to `datamap` but
resets `nextIds = []` inside the row loop before appending, so the next
frontier is only the LAST row's hash.  `fuel` bounds the recursion; the
callers below always pass enough fuel for an acyclic lineage graph. -/
def childrenAllLoop (st : DbState) (instanceId : String) :
    Nat → List String → List String → Except String (List String)
  | 0, datamap, _ => Except.ok datamap
  | fuel + 1, datamap, nextIds =>
    match scanElementChildrenDirect st instanceId nextIds with
    | Except.error e => Except.error e
    | Except.ok nextSet =>
      if nextSet = [] then Except.ok datamap
      else childrenAllLoop st instanceId fuel
        (datamap ++ nextSet.map (fun r => r.hash))
        ((nextSet.getLast?).elim [] (fun r => [r.hash]))

/-- Embedding of `SpiderFootDb.scanElementChildrenAll` (db.py lines
1528-1574): first round collects every direct child hash into `datamap`
and all of them (deduplicated) into the frontier; subsequent rounds run
`childrenAllLoop`. -/
def scanElementChildrenAll (st : DbState) (instanceId : String)
    (parentIds : List String) : Except String (List String) :=
  match scanElementChildrenDirect st instanceId parentIds with
  | Except.error e => Except.error e
  | Except.ok nextSet =>
    let datamap := nextSet.map (fun r => r.hash)
    let nextIds := nextSet.foldl
      (fun ids r => if ids.contains r.hash then ids else ids ++ [r.hash]) []
    childrenAllLoop st instanceId (st.results.length + 1) datamap nextIds

/-- Embedding of `SpiderFootDb.scanResultsUpdateFP` (db.py lines 935-972):
one UPDATE per listed hash within the scan; the end state flags exactly the
rows of the scan whose hash is listed. -/
def scanResultsUpdateFP (st : DbState) (instanceId : String)
    (resultHashes : List String) (fpFlag : Int) : DbState :=
  { st with results := st.results.map (fun r =>
      if r.scan_instance_id = instanceId ∧ resultHashes.contains r.hash then
        { r with false_positive := fpFlag }
      else r) }

/-- Responses of the `resultsetfp` endpoint. -/
inductive FpResp where
  /-- 400 body `["ERROR", ...]`. -/
  | badRequest (msg : String)
  /-- 404 body `["ERROR", ...]`. -/
  | notFound (msg : String)
  /-- 200 body `["WARNING", ...]`: the soft refusal. -/
  | warning (msg : String)
  /-- 200 body `["SUCCESS", ""]`. -/
  | success
  /-- an uncaught exception, turned into a 500 by the middleware. -/
  | serverErr
deriving DecidableEq, Repr

/-- Embedding of the `POST /api/resultsetfp` handler (api_router.py lines
661-720).  `resultids` is the parsed JSON payload: `none` models a payload
that does not parse as a list.  SQLite integer affinity turns the flag
string "1"/"0" into the stored integer. -/
def resultsetfp (st : DbState) (id : String) (resultids : Option (List String))
    (fp : String) : DbState × FpResp :=
  if fp ≠ "0" ∧ fp ≠ "1" then
    (st, FpResp.badRequest "No FP flag set or not set correctly.")
  else
    match resultids with
    | none => (st, FpResp.badRequest "No IDs supplied or invalid format.")
    | some ids =>
      match scanInstanceGet st id with
      | none => (st, FpResp.notFound ("Invalid scan ID: " ++ id))
      | some row =>
        if row.status ≠ "ABORTED" ∧ row.status ≠ "FINISHED" ∧
            row.status ≠ "ERROR-FAILED" then
          (st, FpResp.warning "Scan must be in a finished state when setting False Positives.")
        else if fp = "0" ∧ (scanElementSourcesDirect st id ids).any
            (fun p => p.2.false_positive == 1) then
          (st, FpResp.warning "Cannot unset element as False Positive if a parent element is still False Positive.")
        else
          match scanElementChildrenAll st id ids with
          | Except.error _ => (st, FpResp.serverErr)
          | Except.ok childs =>
            (scanResultsUpdateFP st id (ids ++ childs)
              (if fp = "1" then 1 else 0), FpResp.success)

/-- Transitive descendant relation of the lineage graph of one scan: `d` is
a descendant of `a` when a chain of `source_event_hash` links leads from a
result row with hash `d` up to `a`. -/
inductive DescendantOf (st : DbState) (instanceId : String) : String → String → Prop
  | direct {r : ResultRow} (hr : r ∈ st.results)
      (hscan : r.scan_instance_id = instanceId) :
      DescendantOf st instanceId r.hash r.source_event_hash
  | trans {a b c : String} : DescendantOf st instanceId a b →
      DescendantOf st instanceId b c → DescendantOf st instanceId a c

/- ===================== stopscan ===================== -/

/-- A JSON API response: the success payload or an HTTP error. -/
inductive ApiResp where
  | ok (ids : List String)
  | err (code : Nat) (msg : String)
deriving DecidableEq, Repr

/-- The pre-check loop of `stopscan` (api_router.py lines 786-801): walks
the ids in list order and reports the first offence, if any. -/
def stopscanCheck (st : DbState) : List String → Option (Nat × String)
  | [] => none
  | i :: is =>
    match scanInstanceGet st i with
    | none => some (404, "Scan " ++ i ++ " does not exist.")
    | some row =>
      if row.status = "FINISHED" then
        some (400, "Scan " ++ i ++ " has already finished.")
      else if row.status = "ABORTED" then
        some (400, "Scan " ++ i ++ " has already aborted.")
      else if row.status ≠ "RUNNING" ∧ row.status ≠ "STARTING" then
        some (400, "The scan " ++ i ++ " is in state " ++ row.status ++
          ". Only RUNNING or STARTING scans can be stopped.")
      else stopscanCheck st is

/-- Embedding of the `GET /api/stopscan` handler (api_router.py lines
765-810): 404 on a blank id parameter; then the pre-check loop over the
comma-separated ids (no state is written while it runs); if it passes,
every named scan's status is set to ABORT-REQUESTED and the ids echoed. -/
def stopscan (st : DbState) (idParam : String) : DbState × ApiResp :=
  if pyStrip idParam = "" then (st, ApiResp.err 404 "No scan specified.")
  else
    match stopscanCheck st (pyStripSplit idParam) with
    | some e => (st, ApiResp.err e.1 e.2)
    | none =>
      ((pyStripSplit idParam).foldl
        (fun s i => scanInstanceSetStatus s i "ABORT-REQUESTED") st,
        ApiResp.ok (pyStripSplit idParam))

/- ===================== startscan module resolution ===================== -/

/-- One entry of the scan-module registry `cfg['__modules__']`: its group
memberships and the event types it produces and consumes (watches). -/
structure SFModule where
  name : String
  groups : List String
  provides : List String
  consumes : List String
deriving DecidableEq, Repr

/-- Modelled from the spec: `SpiderFoot.modulesProducing` belongs to the
external scan-engine package, absent from this source set; per §4.10 it
returns the modules that produce any of the given event types. -/
def modulesProducing (reg : List SFModule) (events : List String) : List String :=
  (reg.filter (fun m => m.provides.any (fun e => events.contains e))).map
    (fun m => m.name)

/-- Modelled from the spec: `SpiderFoot.eventsToModules` belongs to the
external scan-engine package, absent from this source set; per §4.10 it
returns the event types consumed by the named modules. -/
def eventsToModules (reg : List SFModule) (modNames : List String) : List String :=
  (reg.filter (fun m => modNames.contains m.name)).flatMap (fun m => m.consumes)

/-- One pass of the dependency-closure `while newmodcpy` loop of `startscan`
(api_router.py lines 467-475), on the pair (modlist, newmods). -/
def typeClosureStep (reg : List SFModule) (modlist newmodcpy : List String) :
    List String × List String :=
  (eventsToModules reg newmodcpy).foldl
    (fun p etype =>
      (modulesProducing reg [etype]).foldl
        (fun q m => if q.1.contains m then q else (q.1 ++ [m], q.2 ++ [m]))
        p)
    (modlist, [])

/-- The closure loop, fuelled; each productive pass adds at least one module
of the registry, so `reg.length + 1` passes always reach the fixed point. -/
def typeClosureGo (reg : List SFModule) :
    Nat → List String → List String → List String
  | 0, modlist, _ => modlist
  | fuel + 1, modlist, newmodcpy =>
    if newmodcpy = [] then modlist
    else
      let p := typeClosureStep reg modlist newmodcpy
      typeClosureGo reg fuel p.1 p.2

/-- Branch B of the module selection (api_router.py lines 460-475): modules
producing the requested types, closed under "produces a consumed type". -/
def resolveTypeModules (reg : List SFModule) (typelist : String) : List String :=
  let typesx := (((splitOnChar ',' typelist.data).map String.mk).filter
    (fun t => pyStrip t ≠ "")).map (fun t => (pyStrip t).replace "type_" "")
  let modlist := modulesProducing reg typesx
  typeClosureGo reg (reg.length + 1) modlist modlist

/-- Branch A (api_router.py line 457): the explicit comma-separated list. -/
def explicitModules (modulelist : String) : List String :=
  pyStripSplit modulelist

/-- Branch C (api_router.py lines 478-481): group selection; the use case
"all" selects every registered module. -/
def usecaseModules (reg : List SFModule) (usecase : String) : List String :=
  (reg.filter (fun m => usecase == "all" || m.groups.contains usecase)).map
    (fun m => m.name)

/-- The module list before the final cleanup, per the selected branch. -/
def rawModlist (reg : List SFModule) (modulelist typelist usecase : String) :
    List String :=
  if modulelist ≠ "" then explicitModules modulelist
  else if typelist ≠ "" then resolveTypeModules reg typelist
  else usecaseModules reg usecase

/-- Cleanup step 1 (api_router.py lines 488-489): append `sfp__stor_db` if
absent. -/
def moduleListWithDb (modlist : List String) : List String :=
  if "sfp__stor_db" ∈ modlist then modlist else modlist ++ ["sfp__stor_db"]

/-- Cleanup step 2 (api_router.py lines 490-491): `list.remove` drops only
the FIRST occurrence of `sfp__stor_stdout`. -/
def moduleListDropStdout (l : List String) : List String :=
  if "sfp__stor_stdout" ∈ l then l.erase "sfp__stor_stdout" else l

/-- The final cleanup (api_router.py lines 488-492): append `sfp__stor_db`
if absent, remove the first `sfp__stor_stdout` if present, and sort. -/
def moduleCleanup (modlist : List String) : List String :=
  pySort (moduleListDropStdout (moduleListWithDb modlist))

/-- Embedding of the module-resolution part of `POST /api/startscan`
(api_router.py lines 439-492), for a request that passed name/target
validation: 400 when no selector is supplied or when the selected branch
resolves to an empty list; otherwise the cleaned-up list handed to the
spawned scan process. -/
def resolveModules (reg : List SFModule) (modulelist typelist usecase : String) :
    Except Nat (List String) :=
  if typelist = "" ∧ modulelist = "" ∧ usecase = "" then Except.error 400
  else if rawModlist reg modulelist typelist usecase = [] then Except.error 400
  else Except.ok (moduleCleanup (rawModlist reg modulelist typelist usecase))

/- ===================== concrete fixtures ===================== -/

/-- An empty store. -/
def emptyDb : DbState :=
  { scans := [], results := [], logs := [], config := [], eventTypes := [] }

/-- A finding whose confidence is out of range (101). -/
def badEvent : SFEvent :=
  { generated := 1, eventType := "IP_ADDRESS", data := "1.2.3.4"
    module := "sfp_dns", confidence := 101, visibility := 100, risk := 0
    sourceEventPresent := true, sourceEventHash := "ROOT", hash := "HX" }

/-- A store holding one ERROR log row for scan "s1". -/
def c5Db : DbState :=
  { scans := [], results := [],
    logs := [{ scan_instance_id := "s1", generated := 1000,
               component := "sfp_dns", type := "ERROR", message := "boom" }],
    config := [], eventTypes := [] }

/-- A finding row of scan "scan1" (fixture). -/
def res1 (h src : String) : ResultRow :=
  { scan_instance_id := "scan1", hash := h, type := "IP_ADDRESS"
    generated := 1, confidence := 100, visibility := 100, risk := 0
    module := "sfp_dns", data := "data-" ++ h, source_event_hash := src
    false_positive := 0 }

/-- A FINISHED scan whose lineage fans out below the first generation:
HA has children HB and HC, HB has child HE, HC has child HF, and HE has
child HG.  HG is a transitive descendant of HA reachable only through a
non-final branch of the second generation. -/
def c1Db : DbState :=
  { scans := [{ guid := "scan1", name := "scan one", seed_target := "x.com"
                created := 0, started := 0, ended := 0, status := "FINISHED" }]
    results := [res1 "HA" "ROOT", res1 "HB" "HA", res1 "HC" "HA",
                res1 "HE" "HB", res1 "HF" "HC", res1 "HG" "HE"]
    logs := [], config := [], eventTypes := ["ROOT", "IP_ADDRESS"] }

/-- A store with a single FINISHED scan "s1" (and no scan "s2"). -/
def c7Db : DbState :=
  { scans := [{ guid := "s1", name := "n", seed_target := "t"
                created := 0, started := 0, ended := 0, status := "FINISHED" }]
    results := [], logs := [], config := [], eventTypes := [] }

/-- A store with a single RUNNING scan "s1". -/
def c7GoodDb : DbState :=
  { scans := [{ guid := "s1", name := "n", seed_target := "t"
                created := 0, started := 0, ended := 0, status := "RUNNING" }]
    results := [], logs := [], config := [], eventTypes := [] }

/-- A one-module registry used to exercise the startscan resolution. -/
def regW : List SFModule :=
  [{ name := "modA", groups := ["all"], provides := ["IP_ADDRESS"]
     consumes := ["DOMAIN_NAME"] }]

/-- Whether a scan id names a stoppable scan (known and RUNNING/STARTING);
this is the per-id test of the stopscan pre-check. -/
def goodScanB (st : DbState) (i : String) : Bool :=
  match scanInstanceGet st i with
  | some r => r.status == "RUNNING" || r.status == "STARTING"
  | none => false

/-- The first id of the list (in order) that fails the stopscan pre-check. -/
def firstOffender (st : DbState) : List String → Option String
  | [] => none
  | i :: is => if goodScanB st i then firstOffender st is else some i

/- ===================== theorems ===================== -/

/-- C9: for every inbound request, regardless of whether its path is on the
allowlist and regardless of method, `should_run_middleware` returns false
("do not skip"). -/
theorem c9_middleware_never_skips (path method : String) :
    should_run_middleware path method = false := by
  unfold should_run_middleware
  split <;> rfl

/-- C5 (code bug): with the default `limit = 0`, `scanErrors` is claimed to
return all ERROR rows of the scan; the code appends `LIMIT 0` (the guard
`if limit is not None` never fails for an int) and therefore returns no
rows.  Here scan "s1" has one ERROR log row, yet the call returns `[]`. -/
theorem c5_scan_errors_limit_zero_returns_nothing :
    scanErrors c5Db "s1" 0 = [] ∧ errorLogRows c5Db "s1" ≠ [] := by
  constructor
  · rfl
  · decide

/-- Helper: if the validation chain of `scanEventStore` passes, every
validated condition holds. -/
theorem eventStoreErr_none_valid (instanceId : String) (ev : SFEvent)
    (he : eventStoreErr instanceId ev = none) : ¬ invalidEventField ev := by
  unfold eventStoreErr at he
  by_cases h1 : instanceId = ""
  · rw [if_pos h1] at he; exact absurd he (Option.some_ne_none _)
  rw [if_neg h1] at he
  by_cases h2 : ev.generated = 0
  · rw [if_pos h2] at he; exact absurd he (Option.some_ne_none _)
  rw [if_neg h2] at he
  by_cases h3 : ev.eventType = ""
  · rw [if_pos h3] at he; exact absurd he (Option.some_ne_none _)
  rw [if_neg h3] at he
  by_cases h4 : ev.data = ""
  · rw [if_pos h4] at he; exact absurd he (Option.some_ne_none _)
  rw [if_neg h4] at he
  by_cases h5 : ev.module = "" ∧ ev.eventType ≠ "ROOT"
  · rw [if_pos h5] at he; exact absurd he (Option.some_ne_none _)
  rw [if_neg h5] at he
  by_cases h6 : ¬(0 ≤ ev.confidence ∧ ev.confidence ≤ 100)
  · rw [if_pos h6] at he; exact absurd he (Option.some_ne_none _)
  rw [if_neg h6] at he
  by_cases h7 : ¬(0 ≤ ev.visibility ∧ ev.visibility ≤ 100)
  · rw [if_pos h7] at he; exact absurd he (Option.some_ne_none _)
  rw [if_neg h7] at he
  by_cases h8 : ¬(0 ≤ ev.risk ∧ ev.risk ≤ 100)
  · rw [if_pos h8] at he; exact absurd he (Option.some_ne_none _)
  rw [if_neg h8] at he
  by_cases h9 : ¬ev.sourceEventPresent ∧ ev.eventType ≠ "ROOT"
  · rw [if_pos h9] at he; exact absurd he (Option.some_ne_none _)
  rw [if_neg h9] at he
  by_cases h10 : ev.sourceEventHash = ""
  · rw [if_pos h10] at he; exact absurd he (Option.some_ne_none _)
  intro hinv
  unfold invalidEventField at hinv
  rcases hinv with hx | hx | hx | hx | hx | hx | hx | hx
  exacts [h6 hx, h7 hx, h8 hx, h4 hx, h3 hx, h5 hx, h10 hx, h2 hx]

/-- C2: any of the claim's invalid-field conditions (confidence, visibility
or risk out of [0,100]; empty data or eventType; empty module with a
non-ROOT type; empty sourceEventHash; zero generated) makes
`scanEventStore` raise an input-validation error and leave the store
unchanged: no row is inserted. -/
theorem c2_event_store_validation (st : DbState) (instanceId : String)
    (ev : SFEvent) (truncateSize : Int) (h : invalidEventField ev) :
    (scanEventStore st instanceId ev truncateSize).1 = st ∧
    (scanEventStore st instanceId ev truncateSize).2.isSome := by
  unfold scanEventStore
  cases he : eventStoreErr instanceId ev with
  | none => exact absurd h (eventStoreErr_none_valid instanceId ev he)
  | some e => exact ⟨rfl, rfl⟩

/-- C2 witness: a finding with confidence 101 is rejected and the empty
store stays empty. -/
theorem c2_event_store_validation_witness :
    invalidEventField badEvent ∧
    ((scanEventStore emptyDb "scan1" badEvent 0).1 = emptyDb ∧
      (scanEventStore emptyDb "scan1" badEvent 0).2.isSome) :=
  ⟨by unfold invalidEventField; left; decide,
    c2_event_store_validation emptyDb "scan1" badEvent 0
      (by unfold invalidEventField; left; decide)⟩

/-- Helper: popping one key leaves every other key's lookup unchanged. -/
theorem dictGet_pop_ne {d : Criteria} {k k' : String} (h : k ≠ k') :
    dictGet (dictPop d k') k = dictGet d k := by
  induction d with
  | nil => rfl
  | cons p d ih =>
    by_cases hp : p.1 = k'
    · unfold dictPop at *
      rw [List.filter_cons_of_neg (by simp [hp])]
      unfold dictGet at *
      rw [List.find?_cons_of_neg _ (by simp [hp]; exact fun hc => h hc.symm)]
      exact ih
    · unfold dictPop at *
      rw [List.filter_cons_of_pos (by simp [hp])]
      unfold dictGet at *
      by_cases hq : p.1 = k
      · rw [List.find?_cons_of_pos _ (by simp [hq]),
          List.find?_cons_of_pos _ (by simp [hq])]
      · rw [List.find?_cons_of_neg _ (by simp [hq]),
          List.find?_cons_of_neg _ (by simp [hq])]
        exact ih

/-- Helper: popping a key preserves key uniqueness. -/
theorem dictPop_keys_nodup {d : Criteria} {k : String}
    (h : (d.map Prod.fst).Nodup) : ((dictPop d k).map Prod.fst).Nodup :=
  h.sublist ((List.filter_sublist d).map Prod.fst)

/-- Helper: with unique keys, `dict.get` of a member pair's key returns its
value. -/
theorem dictGet_eq_of_mem {d : Criteria} {p : String × PyVal}
    (hnd : (d.map Prod.fst).Nodup) (hp : p ∈ d) :
    dictGet d p.1 = some p.2 := by
  induction d with
  | nil => cases hp
  | cons q d ih =>
    rcases List.mem_cons.mp hp with rfl | hmem
    · unfold dictGet
      rw [List.find?_cons_of_pos _ (by simp)]
      rfl
    · have hq : ¬(q.1 = p.1) := by
        intro hc
        exact (List.nodup_cons.mp hnd).1 (hc ▸ List.mem_map_of_mem Prod.fst hmem)
      unfold dictGet
      rw [List.find?_cons_of_neg _ (by simp [hq])]
      exact ih (List.nodup_cons.mp hnd).2 hmem

/-- Helper: when every recognized snapshot key holds a string value, the
filtering loop raises nothing and keeps exactly `keepPred`. -/
theorem searchFilterGo_clean :
    ∀ (ks : List String) (d : Criteria), ks.Nodup → (d.map Prod.fst).Nodup →
    (∀ k ∈ ks, k ∈ validCriteria → isStrOpt (dictGet d k) = true) →
    searchFilterGo ks d = (d.filter (keepPred ks), none) := by
  intro ks
  induction ks with
  | nil =>
    intro d _ _ _
    have hall : ∀ p ∈ d, keepPred [] p = true := by
      intro p _
      simp [keepPred]
    rw [List.filter_eq_self.mpr hall]
    rfl
  | cons k ks ih =>
    intro d hks hd hstr
    have hknotin : k ∉ ks := (List.nodup_cons.mp hks).1
    have hks' : ks.Nodup := (List.nodup_cons.mp hks).2
    by_cases hk : k ∈ validCriteria
    · have hstrk := hstr k (List.mem_cons_self k ks) hk
      cases hget : dictGet d k with
      | none => rw [hget] at hstrk; exact absurd hstrk (by simp [isStrOpt])
      | some v =>
        cases v with
        | nonStr => rw [hget] at hstrk; exact absurd hstrk (by simp [isStrOpt])
        | str s =>
          unfold searchFilterGo
          rw [if_pos hk, hget]
          dsimp only
          have hstrpop : ∀ k' ∈ ks, k' ∈ validCriteria →
              isStrOpt (dictGet (dictPop d k) k') = true := by
            intro k' hk' hv'
            rw [dictGet_pop_ne (fun hc => hknotin (by rw [← hc]; exact hk'))]
            exact hstr k' (List.mem_cons_of_mem k hk') hv'
          by_cases hv : s = ""
          · rw [if_pos hv]
            rw [ih (dictPop d k) hks' (dictPop_keys_nodup hd) hstrpop]
            unfold dictPop
            rw [List.filter_filter]
            congr 1
            apply List.filter_congr
            intro p hp
            by_cases hpk : p.1 = k
            · have hpv : some p.2 = some (PyVal.str s) := by
                rw [← hget, ← hpk, dictGet_eq_of_mem hd hp]
              have hpv' : p.2 = PyVal.str "" := by
                rw [hv] at hpv
                exact (Option.some_inj.mp hpv)
              simp [keepPred, criteriaSurvivor, hpk, hk, hpv']
            · have : (p.1 ∉ k :: ks) ↔ (p.1 ∉ ks) := by simp [hpk]
              simp [keepPred, hpk, this]
          · rw [if_neg hv]
            rw [ih d hks' hd (fun k' hk' hv' =>
              hstr k' (List.mem_cons_of_mem k hk') hv')]
            congr 1
            apply List.filter_congr
            intro p hp
            by_cases hpk : p.1 = k
            · have hpv : some p.2 = some (PyVal.str s) := by
                rw [← hget, ← hpk, dictGet_eq_of_mem hd hp]
              have hpv' : p.2 = PyVal.str s := Option.some_inj.mp hpv
              have hpks : p.1 ∉ ks := hpk ▸ hknotin
              simp [keepPred, criteriaSurvivor, hpk, hk, hpv', hpks, hv]
            · have : (p.1 ∉ k :: ks) ↔ (p.1 ∉ ks) := by simp [hpk]
              simp [keepPred, hpk, this]
    · unfold searchFilterGo
      rw [if_neg hk]
      have hstrpop : ∀ k' ∈ ks, k' ∈ validCriteria →
          isStrOpt (dictGet (dictPop d k) k') = true := by
        intro k' hk' hv'
        rw [dictGet_pop_ne (fun hc => hknotin (by rw [← hc]; exact hk'))]
        exact hstr k' (List.mem_cons_of_mem k hk') hv'
      rw [ih (dictPop d k) hks' (dictPop_keys_nodup hd) hstrpop]
      unfold dictPop
      rw [List.filter_filter]
      congr 1
      apply List.filter_congr
      intro p hp
      by_cases hpk : p.1 = k
      · simp [keepPred, criteriaSurvivor, hpk, hk]
      · have : (p.1 ∉ k :: ks) ↔ (p.1 ∉ ks) := by simp [hpk]
        simp [keepPred, hpk, this]

/-- Helper: a recognized snapshot key holding a non-string value makes the
filtering loop raise TypeError. -/
theorem searchFilterGo_typeerr :
    ∀ (ks : List String) (d : Criteria), ks.Nodup →
    (∃ k, k ∈ ks ∧ k ∈ validCriteria ∧ dictGet d k = some PyVal.nonStr) →
    (searchFilterGo ks d).2 = some SearchErr.typeErr := by
  intro ks
  induction ks with
  | nil =>
    rintro d _ ⟨k, hk, -, -⟩
    cases hk
  | cons k ks ih =>
    rintro d hnd ⟨k0, hk0mem, hk0valid, hk0get⟩
    have hknotin : k ∉ ks := (List.nodup_cons.mp hnd).1
    have hnd' : ks.Nodup := (List.nodup_cons.mp hnd).2
    rcases List.mem_cons.mp hk0mem with rfl | hmem
    · unfold searchFilterGo
      rw [if_pos hk0valid, hk0get]
    · have hne : k0 ≠ k := fun hc => hknotin (hc ▸ hmem)
      unfold searchFilterGo
      by_cases hk : k ∈ validCriteria
      · rw [if_pos hk]
        cases hget : dictGet d k with
        | none => rfl
        | some v =>
          cases v with
          | nonStr => rfl
          | str s =>
            dsimp only
            by_cases hv : s = ""
            · rw [if_pos hv]
              exact ih (dictPop d k) hnd'
                ⟨k0, hmem, hk0valid, by rw [dictGet_pop_ne hne]; exact hk0get⟩
            · rw [if_neg hv]
              exact ih d hnd' ⟨k0, hmem, hk0valid, hk0get⟩
      · rw [if_neg hk]
        exact ih (dictPop d k) hnd'
          ⟨k0, hmem, hk0valid, by rw [dictGet_pop_ne hne]; exact hk0get⟩

/-- Helper: on a well-formed criteria dict whose recognized values are all
strings, `search` filters the dict to the survivors and raises the
length-determined error (never returning rows). -/
theorem searchRun_clean (criteria : Criteria)
    (hnd : (criteria.map Prod.fst).Nodup)
    (hstr : ∀ k ∈ criteria.map Prod.fst, k ∈ validCriteria →
      isStrOpt (dictGet criteria k) = true) :
    searchRun criteria = (criteria.filter criteriaSurvivor,
      if (criteria.filter criteriaSurvivor).length = 0 then
        some SearchErr.noCriteria
      else if (criteria.filter criteriaSurvivor).length = 1 then
        some SearchErr.oneCriterion
      else some SearchErr.nameErrQry) := by
  have hA := searchFilterGo_clean (criteria.map Prod.fst) criteria hnd hnd hstr
  have hfilter : criteria.filter (keepPred (criteria.map Prod.fst)) =
      criteria.filter criteriaSurvivor := by
    apply List.filter_congr
    intro p hp
    have hmem : p.1 ∈ criteria.map Prod.fst := List.mem_map_of_mem Prod.fst hp
    simp [keepPred, hmem]
  rw [hfilter] at hA
  unfold searchRun
  rw [hA]
  dsimp only
  split_ifs <;> rfl

/-- C3: `search` drops unrecognized criteria keys, raises TypeError when a
recognized key holds a non-string value, drops recognized keys with empty
values, and when fewer than two criteria survive it raises a ValueError
(either "no valid criteria" or "only one criteria") without reaching the
query phase, hence without querying the store. -/
theorem c3_search_criteria_validation (criteria : Criteria)
    (hnd : (criteria.map Prod.fst).Nodup) :
    ((∃ k ∈ criteria.map Prod.fst, k ∈ validCriteria ∧
        dictGet criteria k = some PyVal.nonStr) →
      (searchRun criteria).2 = some SearchErr.typeErr) ∧
    ((∀ k ∈ criteria.map Prod.fst, k ∈ validCriteria →
        isStrOpt (dictGet criteria k) = true) →
      (searchRun criteria).1 = criteria.filter criteriaSurvivor ∧
      ((criteria.filter criteriaSurvivor).length < 2 →
        (searchRun criteria).2 = some SearchErr.noCriteria ∨
        (searchRun criteria).2 = some SearchErr.oneCriterion)) := by
  constructor
  · rintro ⟨k, hk, hv, hg⟩
    have hB := searchFilterGo_typeerr (criteria.map Prod.fst) criteria hnd
      ⟨k, hk, hv, hg⟩
    unfold searchRun
    rcases hr : searchFilterGo (criteria.map Prod.fst) criteria with ⟨d', e'⟩
    rw [hr] at hB
    simp only at hB
    rw [hB]
  · intro hstr
    rw [searchRun_clean criteria hnd hstr]
    refine ⟨rfl, fun hlen => ?_⟩
    by_cases h0 : (criteria.filter criteriaSurvivor).length = 0
    · left
      simp [h0]
    · right
      have h1 : (criteria.filter criteriaSurvivor).length = 1 := by omega
      simp [h1]

/-- C3 witness: a single surviving criterion ("scan_id" only) raises the
too-few-criteria ValueError. -/
theorem c3_search_criteria_validation_witness :
    ([("scan_id", PyVal.str "abc"), ("junk", PyVal.str "x")].map
        (Prod.fst (β := PyVal))).Nodup ∧
    (searchRun [("scan_id", PyVal.str "abc"), ("junk", PyVal.str "x")]).1 =
      [("scan_id", PyVal.str "abc"), ("junk", PyVal.str "x")].filter
        criteriaSurvivor ∧
    ((searchRun [("scan_id", PyVal.str "abc"), ("junk", PyVal.str "x")]).2 =
        some SearchErr.noCriteria ∨
      (searchRun [("scan_id", PyVal.str "abc"), ("junk", PyVal.str "x")]).2 =
        some SearchErr.oneCriterion) := by
  refine ⟨by decide, ?_, ?_⟩
  · exact ((c3_search_criteria_validation _ (by decide)).2 (by decide)).1
  · exact ((c3_search_criteria_validation _ (by decide)).2 (by decide)).2 (by decide)

/-- C4 (code bug): whenever at least two criteria survive the filtering
(the case the claim says returns joined rows), `search` instead raises
NameError: the built query is held in `qry_str` but the undefined local
`qry` is executed. -/
theorem c4_search_raises_nameerror (criteria : Criteria)
    (hnd : (criteria.map Prod.fst).Nodup)
    (hstr : ∀ k ∈ criteria.map Prod.fst, k ∈ validCriteria →
      isStrOpt (dictGet criteria k) = true)
    (h2 : 2 ≤ (criteria.filter criteriaSurvivor).length) :
    (searchRun criteria).2 = some SearchErr.nameErrQry := by
  rw [searchRun_clean criteria hnd hstr]
  simp only
  rw [if_neg (by omega), if_neg (by omega)]

/-- C4 witness: two well-formed criteria (scan_id and type) still raise the
NameError instead of returning rows. -/
theorem c4_search_raises_nameerror_witness :
    2 ≤ ([("scan_id", PyVal.str "abc"), ("type", PyVal.str "IPADDR")].filter
      criteriaSurvivor).length ∧
    (searchRun [("scan_id", PyVal.str "abc"),
      ("type", PyVal.str "IPADDR")]).2 = some SearchErr.nameErrQry :=
  ⟨by decide,
    c4_search_raises_nameerror _ (by decide) (by decide) (by decide)⟩

/-- C10 counterexample: when a recognized key with a non-string value is
scanned before an unrecognized key, the TypeError aborts the loop and the
unrecognized key ("junk") is still in the caller's dict, contradicting the
claim that every unrecognized key is removed even on raising calls. -/
theorem c10_counterexample :
    (searchRun [("type", PyVal.nonStr), ("junk", PyVal.str "x")]).1 =
      [("type", PyVal.nonStr), ("junk", PyVal.str "x")] ∧
    ("junk" ∉ validCriteria) ∧
    (searchRun [("type", PyVal.nonStr), ("junk", PyVal.str "x")]).2 =
      some SearchErr.typeErr := by
  decide

/-- C10 (amended): for calls that do not raise a TypeError (every recognized
key holds a string value), `search` mutates the caller's criteria dict to
exactly the survivors — every unrecognized key and every recognized
empty-valued key removed, the rest unchanged — including the calls that go
on to raise the too-few-criteria ValueError or the NameError. -/
theorem c10_search_mutates_criteria (criteria : Criteria)
    (hnd : (criteria.map Prod.fst).Nodup)
    (hstr : ∀ k ∈ criteria.map Prod.fst, k ∈ validCriteria →
      isStrOpt (dictGet criteria k) = true) :
    (searchRun criteria).1 = criteria.filter criteriaSurvivor := by
  rw [searchRun_clean criteria hnd hstr]

/-- C10 witness: an unrecognized key and an empty recognized key are removed
while the surviving pair is untouched. -/
theorem c10_search_mutates_criteria_witness :
    ([("scan_id", PyVal.str "abc"), ("junk", PyVal.str "x"),
        ("value", PyVal.str "")].map (Prod.fst (β := PyVal))).Nodup ∧
    (searchRun [("scan_id", PyVal.str "abc"), ("junk", PyVal.str "x"),
        ("value", PyVal.str "")]).1 =
      [("scan_id", PyVal.str "abc"), ("junk", PyVal.str "x"),
        ("value", PyVal.str "")].filter criteriaSurvivor :=
  ⟨by decide, c10_search_mutates_criteria _ (by decide) (by decide)⟩

/-- C1 (code bug): on the FINISHED scan of `c1Db`, `resultsetfp` with
fp="1" on ["HA"] reports SUCCESS, flags HB, HC, HE and HF, but leaves the
transitive descendant HG (child of HE, reachable only through the non-last
branch of the second generation) unflagged: the `while` loop of
`scanElementChildrenAll` resets its frontier to the last row of each round,
so fan-out below the first generation is lost and the claim's "every
transitive descendant" fails. -/
theorem c1_resultsetfp_misses_fanout_descendant :
    (resultsetfp c1Db "scan1" (some ["HA"]) "1").2 = FpResp.success ∧
    DescendantOf c1Db "scan1" "HG" "HA" ∧
    ((resultsetfp c1Db "scan1" (some ["HA"]) "1").1.results.find?
        (fun r => r.hash == "HG")).map (fun r => r.false_positive) = some 0 ∧
    ((resultsetfp c1Db "scan1" (some ["HA"]) "1").1.results.find?
        (fun r => r.hash == "HB")).map (fun r => r.false_positive) = some 1 ∧
    ((resultsetfp c1Db "scan1" (some ["HA"]) "1").1.results.find?
        (fun r => r.hash == "HE")).map (fun r => r.false_positive) = some 1 := by
  refine ⟨by decide, ?_, by decide, by decide, by decide⟩
  have h1 : DescendantOf c1Db "scan1" "HG" "HE" :=
    DescendantOf.direct (r := res1 "HG" "HE") (by decide) rfl
  have h2 : DescendantOf c1Db "scan1" "HE" "HB" :=
    DescendantOf.direct (r := res1 "HE" "HB") (by decide) rfl
  have h3 : DescendantOf c1Db "scan1" "HB" "HA" :=
    DescendantOf.direct (r := res1 "HB" "HA") (by decide) rfl
  exact DescendantOf.trans h1 (DescendantOf.trans h2 h3)

/-- Helper: when every listed id is stoppable the pre-check passes. -/
theorem stopscanCheck_none (st : DbState) :
    ∀ ids : List String, firstOffender st ids = none →
    stopscanCheck st ids = none := by
  intro ids
  induction ids with
  | nil => intro _; rfl
  | cons i is ih =>
    intro h
    unfold firstOffender at h
    by_cases hg : goodScanB st i
    · rw [if_pos hg] at h
      unfold goodScanB at hg
      unfold stopscanCheck
      cases hget : scanInstanceGet st i with
      | none => rw [hget] at hg; cases hg
      | some r =>
        rw [hget] at hg
        have hst : r.status = "RUNNING" ∨ r.status = "STARTING" := by
          simpa using hg
        have hsf : ¬(r.status = "FINISHED") := by
          rcases hst with h' | h' <;> simp [h']
        have hsa : ¬(r.status = "ABORTED") := by
          rcases hst with h' | h' <;> simp [h']
        have hrs : ¬(r.status ≠ "RUNNING" ∧ r.status ≠ "STARTING") := by
          rcases hst with h' | h' <;> simp [h']
        dsimp only
        rw [if_neg hsf, if_neg hsa, if_neg hrs]
        exact ih h
    · rw [if_neg hg] at h
      exact absurd h (Option.some_ne_none _)

/-- Helper: the pre-check stops at the first offending id, answering 404
when it is unknown and 400 otherwise. -/
theorem stopscanCheck_offender (st : DbState) :
    ∀ (ids : List String) (j : String), firstOffender st ids = some j →
    ∃ e, stopscanCheck st ids = some e ∧
      ((scanInstanceGet st j = none ∧ e.1 = 404) ∨
        (∃ r, scanInstanceGet st j = some r ∧ e.1 = 400)) := by
  intro ids
  induction ids with
  | nil => intro j h; cases h
  | cons i is ih =>
    intro j h
    unfold firstOffender at h
    by_cases hg : goodScanB st i
    · rw [if_pos hg] at h
      obtain ⟨e, hchk, hcase⟩ := ih j h
      refine ⟨e, ?_, hcase⟩
      unfold goodScanB at hg
      unfold stopscanCheck
      cases hget : scanInstanceGet st i with
      | none => rw [hget] at hg; cases hg
      | some r =>
        rw [hget] at hg
        have hst : r.status = "RUNNING" ∨ r.status = "STARTING" := by
          simpa using hg
        have hsf : ¬(r.status = "FINISHED") := by
          rcases hst with h' | h' <;> simp [h']
        have hsa : ¬(r.status = "ABORTED") := by
          rcases hst with h' | h' <;> simp [h']
        have hrs : ¬(r.status ≠ "RUNNING" ∧ r.status ≠ "STARTING") := by
          rcases hst with h' | h' <;> simp [h']
        dsimp only
        rw [if_neg hsf, if_neg hsa, if_neg hrs]
        exact hchk
    · rw [if_neg hg] at h
      have hj : j = i := (Option.some_inj.mp h).symm
      subst hj
      unfold goodScanB at hg
      unfold stopscanCheck
      cases hget : scanInstanceGet st j with
      | none =>
        exact ⟨_, rfl, Or.inl ⟨rfl, rfl⟩⟩
      | some r =>
        rw [hget] at hg
        have hst : ¬(r.status = "RUNNING" ∨ r.status = "STARTING") := by
          simpa using hg
        dsimp only
        by_cases hsf : r.status = "FINISHED"
        · rw [if_pos hsf]
          exact ⟨_, rfl, Or.inr ⟨r, rfl, rfl⟩⟩
        rw [if_neg hsf]
        by_cases hsa : r.status = "ABORTED"
        · rw [if_pos hsa]
          exact ⟨_, rfl, Or.inr ⟨r, rfl, rfl⟩⟩
        rw [if_neg hsa]
        rw [if_pos ⟨fun h' => hst (Or.inl h'), fun h' => hst (Or.inr h')⟩]
        exact ⟨_, rfl, Or.inr ⟨r, rfl, rfl⟩⟩

/-- Helper: requesting aborts over a list of ids rewrites exactly the
status of the rows whose guid is listed. -/
theorem foldl_abort_scans (ids : List String) (st : DbState) :
    (ids.foldl (fun s i => scanInstanceSetStatus s i "ABORT-REQUESTED") st).scans =
      st.scans.map (fun r => if r.guid ∈ ids then
        { r with status := "ABORT-REQUESTED" } else r) := by
  induction ids generalizing st with
  | nil => simp
  | cons i ids ih =>
    rw [List.foldl_cons, ih]
    unfold scanInstanceSetStatus
    dsimp only
    rw [List.map_map]
    apply List.map_congr_left
    intro r _
    by_cases hr : r.guid = i
    · simp [Function.comp, hr]
    · simp [Function.comp, hr]

/-- Helper: effect of the abort fold on a single scan lookup. -/
theorem scanInstanceGet_after_abort (st : DbState) (ids : List String)
    (g : String) :
    scanInstanceGet
      (ids.foldl (fun s i => scanInstanceSetStatus s i "ABORT-REQUESTED") st) g =
    Option.map (fun r => if g ∈ ids then
      { r with status := "ABORT-REQUESTED" } else r) (scanInstanceGet st g) := by
  unfold scanInstanceGet
  rw [foldl_abort_scans, List.find?_map]
  have hpf : ((fun (r : ScanRow) => decide (r.guid = g)) ∘
      (fun r => if r.guid ∈ ids then { r with status := "ABORT-REQUESTED" }
        else r)) = fun r => decide (r.guid = g) := by
    funext r
    by_cases hr : r.guid ∈ ids <;> simp [Function.comp, hr]
  rw [hpf]
  cases hfind : st.scans.find? (fun r => decide (r.guid = g)) with
  | none => rfl
  | some r =>
    have hg : r.guid = g := by simpa using List.find?_some hfind
    by_cases hmem : g ∈ ids <;> simp [Option.map, hg, hmem]

/-- C7 counterexample: on a store where "s1" is FINISHED and "s2" is
unknown, `stopscan` over "s1,s2" answers 400 (the first offending id in
list order is the finished "s1"), not the 404 the claim requires whenever
any named scan is unknown. -/
theorem c7_stopscan_counterexample :
    scanInstanceGet c7Db "s2" = none ∧
    (stopscan c7Db "s1,s2").2 =
      ApiResp.err 400 "Scan s1 has already finished." ∧
    (stopscan c7Db "s1,s2").1 = c7Db := by
  decide

/-- C7 (amended): for a non-blank id parameter, the ids are pre-checked in
list order before any write; if every named scan is known and RUNNING or
STARTING, each one's status becomes ABORT-REQUESTED (other scans are
untouched) and the id list is echoed; otherwise no status changes and the
response is determined by the first offending id: 404 when it is unknown,
400 when its status disallows stopping (FINISHED, ABORTED or any state
other than RUNNING/STARTING). -/
theorem c7_stopscan_first_offender (st : DbState) (idParam : String)
    (hblank : pyStrip idParam ≠ "") :
    (firstOffender st (pyStripSplit idParam) = none →
      (stopscan st idParam).2 = ApiResp.ok (pyStripSplit idParam) ∧
      ∀ g, scanInstanceGet (stopscan st idParam).1 g =
        Option.map (fun r => if g ∈ pyStripSplit idParam then
          { r with status := "ABORT-REQUESTED" } else r)
          (scanInstanceGet st g)) ∧
    (∀ j, firstOffender st (pyStripSplit idParam) = some j →
      (stopscan st idParam).1 = st ∧
      ((scanInstanceGet st j = none ∧
          ∃ m, (stopscan st idParam).2 = ApiResp.err 404 m) ∨
        (∃ r, scanInstanceGet st j = some r ∧
          ∃ m, (stopscan st idParam).2 = ApiResp.err 400 m))) := by
  unfold stopscan
  rw [if_neg hblank]
  constructor
  · intro hnone
    rw [stopscanCheck_none st (pyStripSplit idParam) hnone]
    exact ⟨rfl, fun g => scanInstanceGet_after_abort st _ g⟩
  · intro j hoff
    obtain ⟨e, hchk, hcase⟩ := stopscanCheck_offender st _ j hoff
    rw [hchk]
    refine ⟨rfl, ?_⟩
    rcases hcase with ⟨hnone, h404⟩ | ⟨r, hsome, h400⟩
    · exact Or.inl ⟨hnone, e.2, by
        show ApiResp.err e.1 e.2 = ApiResp.err 404 e.2
        rw [h404]⟩
    · exact Or.inr ⟨r, hsome, e.2, by
        show ApiResp.err e.1 e.2 = ApiResp.err 400 e.2
        rw [h400]⟩

/-- C7 witness: stopping the RUNNING scan "s1" succeeds, echoes the id and
sets its status to ABORT-REQUESTED. -/
theorem c7_stopscan_first_offender_witness :
    pyStrip "s1" ≠ "" ∧
    (stopscan c7GoodDb "s1").2 = ApiResp.ok (pyStripSplit "s1") ∧
    scanInstanceGet (stopscan c7GoodDb "s1").1 "s1" =
      Option.map (fun r => if "s1" ∈ pyStripSplit "s1" then
        { r with status := "ABORT-REQUESTED" } else r)
        (scanInstanceGet c7GoodDb "s1") :=
  ⟨by decide,
    ((c7_stopscan_first_offender c7GoodDb "s1" (by decide)).1 (by decide)).1,
    ((c7_stopscan_first_offender c7GoodDb "s1" (by decide)).1 (by decide)).2 "s1"⟩

/-- Helper: splitting a colon-free chunk yields just that chunk. -/
theorem splitOnChar_no_c (c : Char) (b : List Char) (hb : c ∉ b) :
    splitOnChar c b = [b] := by
  induction b with
  | nil => rfl
  | cons x xs ih =>
    have hx : ¬(x = c) := fun h => hb (h ▸ List.mem_cons_self x xs)
    have hxs : c ∉ xs := fun h => hb (List.mem_cons_of_mem x h)
    rw [splitOnChar, if_neg hx, ih hxs]

/-- Helper: splitting at the first separator after a clean prefix. -/
theorem splitOnChar_append (c : Char) (a b : List Char) (ha : c ∉ a) :
    splitOnChar c (a ++ c :: b) = a :: splitOnChar c b := by
  induction a with
  | nil =>
    show splitOnChar c (c :: b) = [] :: splitOnChar c b
    rw [splitOnChar, if_pos rfl]
  | cons x xs ih =>
    have hx : ¬(x = c) := fun h => ha (h ▸ List.mem_cons_self x xs)
    have hxs : c ∉ xs := fun h => ha (List.mem_cons_of_mem x h)
    show splitOnChar c (x :: (xs ++ c :: b)) = (x :: xs) :: splitOnChar c b
    rw [splitOnChar, if_neg hx, ih hxs]

/-- Helper: for a lossless key, reading back the stored (scope, opt) pair
reconstructs the key. -/
theorem loadKey_storeKey {k : String} (h : losslessKey k) :
    loadKey (storeKey k).1 (storeKey k).2 = k := by
  unfold losslessKey at h
  rcases h with hnc | ⟨a, b, hk, ha, hb, hG⟩
  · unfold storeKey
    rw [if_neg (by simpa using hnc)]
    unfold loadKey
    rw [if_pos rfl]
  · have hcontains : k.data.contains ':' = true := by
      rw [hk]
      simp
    unfold storeKey
    rw [if_pos hcontains, hk, splitOnChar_append ':' a b ha,
      splitOnChar_no_c ':' b hb]
    dsimp only [List.headD, List.drop]
    unfold loadKey
    rw [if_neg hG]
    apply String.ext
    rw [String.data_append, String.data_append, hk]
    show a ++ (":".data) ++ b = a ++ ':' :: b
    rw [List.append_assoc]
    rfl

/-- Helper: distinct lossless keys store to distinct (scope, opt) pairs. -/
theorem storeKey_inj {k1 k2 : String} (h1 : losslessKey k1)
    (h2 : losslessKey k2) (h : storeKey k1 = storeKey k2) : k1 = k2 := by
  have hr := loadKey_storeKey h1
  rw [← hr, h, loadKey_storeKey h2]

/-- Helper: merging rows with fresh (scope, opt) pairs appends them. -/
theorem configSet_fold (m : List (String × String)) :
    ∀ t : List CfgRow,
    (∀ kv ∈ m, ∀ r ∈ t,
      ¬(r.scope = (storeKey kv.1).1 ∧ r.opt = (storeKey kv.1).2)) →
    (m.map (fun kv => storeKey kv.1)).Nodup →
    m.foldl (fun acc kv =>
        cfgMerge acc (storeKey kv.1).1 (storeKey kv.1).2 kv.2) t =
      t ++ m.map (fun kv =>
        CfgRow.mk (storeKey kv.1).1 (storeKey kv.1).2 kv.2) := by
  induction m with
  | nil =>
    intro t _ _
    simp
  | cons kv m ih =>
    intro t hdisj hnd
    have hheadnotin : storeKey kv.1 ∉ m.map (fun kv' => storeKey kv'.1) :=
      (List.nodup_cons.mp hnd).1
    have hndtail : (m.map (fun kv' => storeKey kv'.1)).Nodup :=
      (List.nodup_cons.mp hnd).2
    rw [List.foldl_cons]
    have hmerge : cfgMerge t (storeKey kv.1).1 (storeKey kv.1).2 kv.2 =
        t ++ [CfgRow.mk (storeKey kv.1).1 (storeKey kv.1).2 kv.2] := by
      unfold cfgMerge
      rw [if_neg ?hany]
      case hany =>
        intro hany
        rw [List.any_eq_true] at hany
        obtain ⟨r, hr, hmatch⟩ := hany
        have := hdisj kv (List.mem_cons_self kv m) r hr
        simp only [Bool.and_eq_true, beq_iff_eq] at hmatch
        exact this hmatch
    rw [hmerge]
    rw [ih (t ++ [CfgRow.mk (storeKey kv.1).1 (storeKey kv.1).2 kv.2])
      ?hdisj2 hndtail]
    · rw [List.append_assoc]
      rfl
    case hdisj2 =>
      intro kv' hkv' r hr
      rcases List.mem_append.mp hr with hrt | hrnew
      · exact hdisj kv' (List.mem_cons_of_mem kv hkv') r hrt
      · have hreq : r = CfgRow.mk (storeKey kv.1).1 (storeKey kv.1).2 kv.2 := by
          simpa using hrnew
        subst hreq
        intro hmatch
        apply hheadnotin
        have hpair : storeKey kv.1 = storeKey kv'.1 := by
          have h1 := hmatch.1
          have h2 := hmatch.2
          exact Prod.ext (by simpa using h1) (by simpa using h2)
        rw [hpair]
        exact List.mem_map_of_mem (fun kv' => storeKey kv'.1) hkv'

/-- Helper: rebuilding a dict from rows with distinct reconstructed keys
appends one entry per row. -/
theorem configGet_fold (rows : List CfgRow) :
    ∀ acc : List (String × String),
    (∀ r ∈ rows, ∀ p ∈ acc, ¬(p.1 = loadKey r.scope r.opt)) →
    (rows.map (fun r => loadKey r.scope r.opt)).Nodup →
    rows.foldl (fun d r => dictPut d (loadKey r.scope r.opt) r.val) acc =
      acc ++ rows.map (fun r => (loadKey r.scope r.opt, r.val)) := by
  induction rows with
  | nil =>
    intro acc _ _
    simp
  | cons r rows ih =>
    intro acc hdisj hnd
    have hheadnotin : loadKey r.scope r.opt ∉
        rows.map (fun r' => loadKey r'.scope r'.opt) :=
      (List.nodup_cons.mp hnd).1
    have hndtail : (rows.map (fun r' => loadKey r'.scope r'.opt)).Nodup :=
      (List.nodup_cons.mp hnd).2
    rw [List.foldl_cons]
    have hput : dictPut acc (loadKey r.scope r.opt) r.val =
        acc ++ [(loadKey r.scope r.opt, r.val)] := by
      unfold dictPut
      rw [if_neg ?hany]
      case hany =>
        intro hany
        rw [List.any_eq_true] at hany
        obtain ⟨p, hp, hmatch⟩ := hany
        exact hdisj r (List.mem_cons_self r rows) p hp (by simpa using hmatch)
    rw [hput]
    rw [ih (acc ++ [(loadKey r.scope r.opt, r.val)]) ?hdisj2 hndtail]
    · rw [List.append_assoc]
      rfl
    case hdisj2 =>
      intro r' hr' p hp
      rcases List.mem_append.mp hp with hpacc | hpnew
      · exact hdisj r' (List.mem_cons_of_mem r hr') p hpacc
      · have hpeq : p = (loadKey r.scope r.opt, r.val) := by simpa using hpnew
        subst hpeq
        intro heq
        apply hheadnotin
        rw [show loadKey r.scope r.opt = loadKey r'.scope r'.opt from heq]
        exact List.mem_map_of_mem (fun r' => loadKey r'.scope r'.opt) hr' 

/-- C8 counterexample: the key "GLOBAL:x" is written as scope "GLOBAL",
opt "x", and configGet reconstructs plain "x", so the round trip returns
{"x": "v"}, not the original {"GLOBAL:x": "v"}. -/
theorem c8_config_roundtrip_counterexample :
    configSet [] [("GLOBAL:x", "v")] =
      Except.ok [CfgRow.mk "GLOBAL" "x" "v"] ∧
    configGet [CfgRow.mk "GLOBAL" "x" "v"] = [("x", "v")] ∧
    [("x", "v")] ≠ [("GLOBAL:x", "v")] := by
  refine ⟨?_, by decide, by decide⟩
  rfl

/-- C8 (amended): starting from an empty config table, configSet followed by
configGet round-trips every non-empty option map whose keys are lossless
for the colon convention: at most one colon per key and no colon key using
the reserved scope "GLOBAL".  (The counterexample shows the unrestricted
claim fails on "GLOBAL:x"; keys with two or more colons, e.g. "a:b:c",
likewise come back truncated to "a:b".) -/
theorem c8_config_roundtrip (m : List (String × String))
    (hne : m ≠ [])
    (hnd : (m.map Prod.fst).Nodup)
    (hkeys : ∀ k ∈ m.map Prod.fst, losslessKey k) :
    Except.map configGet (configSet [] m) = Except.ok m := by
  unfold configSet
  rw [if_neg hne]
  show Except.ok (configGet _) = Except.ok m
  congr 1
  have hsknd : (m.map (fun kv => storeKey kv.1)).Nodup := by
    have hmm : m.map (fun kv => storeKey kv.1) =
        (m.map Prod.fst).map storeKey := by
      rw [List.map_map]
      rfl
    rw [hmm]
    refine List.Nodup.map_on ?_ hnd
    intro x hx y hy hxy
    exact storeKey_inj (hkeys x hx) (hkeys y hy) hxy
  rw [configSet_fold m [] (by intro kv _ r hr; cases hr) hsknd,
    List.nil_append]
  have hload : ∀ kv ∈ m,
      loadKey (storeKey kv.1).1 (storeKey kv.1).2 = kv.1 := by
    intro kv hkv
    exact loadKey_storeKey (hkeys kv.1 (List.mem_map_of_mem Prod.fst hkv))
  unfold configGet
  rw [configGet_fold _ [] (by intro r _ p hp; cases hp) ?hnd2]
  case hnd2 =>
    rw [List.map_map]
    have : m.map ((fun r => loadKey r.scope r.opt) ∘ (fun kv =>
        CfgRow.mk (storeKey kv.1).1 (storeKey kv.1).2 kv.2)) =
        m.map Prod.fst := by
      apply List.map_congr_left
      intro kv hkv
      exact hload kv hkv
    rw [this]
    exact hnd
  rw [List.nil_append, List.map_map]
  have : m.map ((fun r => (loadKey r.scope r.opt, r.val)) ∘ (fun kv =>
      CfgRow.mk (storeKey kv.1).1 (storeKey kv.1).2 kv.2)) =
      m.map (fun kv => kv) := by
    apply List.map_congr_left
    intro kv hkv
    show (loadKey (storeKey kv.1).1 (storeKey kv.1).2, kv.2) = kv
    rw [hload kv hkv]
  rw [this, List.map_id']

/-- C8 witness: the map {"a": "1", "mod1:opt": "2"} round-trips. -/
theorem c8_config_roundtrip_witness :
    ([("a", "1"), ("mod1:opt", "2")] : List (String × String)) ≠ [] ∧
    Except.map configGet (configSet [] [("a", "1"), ("mod1:opt", "2")]) =
      Except.ok [("a", "1"), ("mod1:opt", "2")] :=
  ⟨by decide,
    c8_config_roundtrip [("a", "1"), ("mod1:opt", "2")] (by decide) (by decide)
      (by
        intro k hk
        have hk' : k = "a" ∨ k = "mod1:opt" := by simpa using hk
        rcases hk' with rfl | rfl
        · exact Or.inl (by decide)
        · exact Or.inr ⟨['m', 'o', 'd', '1'], ['o', 'p', 't'],
            by decide, by decide, by decide, by decide⟩)⟩

/-- Helper: the code-point order is total. -/
theorem strLeB_total : ∀ a b : List Char,
    strLeB a b = true ∨ strLeB b a = true := by
  intro a
  induction a with
  | nil => intro b; left; rfl
  | cons x xs ih =>
    intro b
    cases b with
    | nil => right; rfl
    | cons y ys =>
      rw [strLeB, strLeB]
      by_cases hxy : x.toNat < y.toNat
      · left
        rw [if_pos hxy]
      by_cases hyx : y.toNat < x.toNat
      · right
        rw [if_pos hyx]
      rw [if_neg hxy, if_neg hyx, if_neg hyx, if_neg hxy]
      exact ih ys

/-- Helper: the code-point order is transitive. -/
theorem strLeB_trans : ∀ a b c : List Char,
    strLeB a b = true → strLeB b c = true → strLeB a c = true := by
  intro a
  induction a with
  | nil => intro b c _ _; rfl
  | cons x xs ih =>
    intro b c h1 h2
    cases b with
    | nil => rw [strLeB] at h1; exact absurd h1 (by simp)
    | cons y ys =>
      cases c with
      | nil => rw [strLeB] at h2; exact absurd h2 (by simp)
      | cons z zs =>
        rw [strLeB] at h1 h2 ⊢
        by_cases hxy : x.toNat < y.toNat
        · by_cases hyz : y.toNat < z.toNat
          · rw [if_pos (by omega : x.toNat < z.toNat)]
          · rw [if_neg hyz] at h2
            by_cases hzy : z.toNat < y.toNat
            · rw [if_pos hzy] at h2
              exact absurd h2 (by simp)
            · rw [if_pos (by omega : x.toNat < z.toNat)]
        · rw [if_neg hxy] at h1
          by_cases hyx : y.toNat < x.toNat
          · rw [if_pos hyx] at h1
            exact absurd h1 (by simp)
          rw [if_neg hyx] at h1
          by_cases hyz : y.toNat < z.toNat
          · rw [if_pos (by omega : x.toNat < z.toNat)]
          rw [if_neg hyz] at h2
          by_cases hzy : z.toNat < y.toNat
          · rw [if_pos hzy] at h2
            exact absurd h2 (by simp)
          rw [if_neg hzy] at h2
          rw [if_neg (by omega : ¬x.toNat < z.toNat),
            if_neg (by omega : ¬z.toNat < x.toNat)]
          exact ih ys zs h1 h2

instance : IsTotal String pyStrLe :=
  ⟨fun a b => strLeB_total a.data b.data⟩

instance : IsTrans String pyStrLe :=
  ⟨fun _ _ _ h1 h2 => strLeB_trans _ _ _ h1 h2⟩

/-- Helper: step 1 guarantees the storage module is present. -/
theorem mem_db_withDb (l : List String) :
    "sfp__stor_db" ∈ moduleListWithDb l := by
  unfold moduleListWithDb
  by_cases h : "sfp__stor_db" ∈ l
  · rw [if_pos h]; exact h
  · rw [if_neg h]
    exact List.mem_append_right _ (List.mem_singleton.mpr rfl)

/-- Helper: step 2 keeps every module other than the stdout module. -/
theorem mem_dropStdout_of_ne {a : String} {l : List String}
    (ha : a ≠ "sfp__stor_stdout") (h : a ∈ l) :
    a ∈ moduleListDropStdout l := by
  unfold moduleListDropStdout
  by_cases hs : "sfp__stor_stdout" ∈ l
  · rw [if_pos hs]; exact (List.mem_erase_of_ne ha).mpr h
  · rw [if_neg hs]; exact h

/-- Helper: step 1 does not change the number of stdout occurrences. -/
theorem count_stdout_withDb (l : List String) :
    (moduleListWithDb l).count "sfp__stor_stdout" =
      l.count "sfp__stor_stdout" := by
  unfold moduleListWithDb
  by_cases h : "sfp__stor_db" ∈ l
  · rw [if_pos h]
  · rw [if_neg h, List.count_append]
    simp

/-- Helper: if stdout occurs at most once, step 2 removes it entirely. -/
theorem stdout_notin_dropStdout {l : List String}
    (h : l.count "sfp__stor_stdout" ≤ 1) :
    "sfp__stor_stdout" ∉ moduleListDropStdout l := by
  unfold moduleListDropStdout
  by_cases hs : "sfp__stor_stdout" ∈ l
  · rw [if_pos hs]
    have h1 : 1 ≤ l.count "sfp__stor_stdout" := List.one_le_count_iff.mpr hs
    have : (l.erase "sfp__stor_stdout").count "sfp__stor_stdout" = 0 := by
      rw [List.count_erase_self]
      omega
    exact List.count_eq_zero.mp this
  · rw [if_neg hs]; exact hs

/-- C6 (amended): whenever the startscan module resolution hands a list to
the scan process, that list contains `sfp__stor_db` and is sorted; the
cleanup removes one `sfp__stor_stdout` occurrence, so the list is free of
`sfp__stor_stdout` whenever the resolved raw list held at most one
occurrence (always true for the type-list and use-case branches; an
explicit module list can defeat it by naming the module twice); use case
"all" selects every registered module; and an empty resolution (or no
selector at all) is answered with a 400 error. -/
theorem c6_startscan_module_resolution (reg : List SFModule)
    (ml tl uc : String) :
    (∀ mods, resolveModules reg ml tl uc = Except.ok mods →
      "sfp__stor_db" ∈ mods ∧
      List.Sorted pyStrLe mods ∧
      ((rawModlist reg ml tl uc).count "sfp__stor_stdout" ≤ 1 →
        "sfp__stor_stdout" ∉ mods) ∧
      (ml = "" ∧ tl = "" ∧ uc = "all" →
        mods = moduleCleanup (reg.map (fun m => m.name)))) ∧
    (¬(tl = "" ∧ ml = "" ∧ uc = "") → rawModlist reg ml tl uc = [] →
      resolveModules reg ml tl uc = Except.error 400) := by
  constructor
  · intro mods h
    unfold resolveModules at h
    by_cases h0 : (tl = "" ∧ ml = "" ∧ uc = "")
    · rw [if_pos h0] at h
      exact absurd h (by simp)
    rw [if_neg h0] at h
    by_cases hraw : rawModlist reg ml tl uc = []
    · rw [if_pos hraw] at h
      exact absurd h (by simp)
    rw [if_neg hraw] at h
    have hmods : mods = moduleCleanup (rawModlist reg ml tl uc) :=
      (Except.ok.inj h).symm
    subst hmods
    refine ⟨?_, ?_, ?_, ?_⟩
    · unfold moduleCleanup pySort
      rw [List.mem_insertionSort]
      exact mem_dropStdout_of_ne (by decide) (mem_db_withDb _)
    · exact List.sorted_insertionSort pyStrLe _
    · intro hcount
      unfold moduleCleanup pySort
      rw [List.mem_insertionSort]
      apply stdout_notin_dropStdout
      rw [count_stdout_withDb]
      exact hcount
    · rintro ⟨hml, htl, huc⟩
      unfold rawModlist
      rw [if_neg (by simp [hml]), if_neg (by simp [htl])]
      subst huc
      unfold usecaseModules
      congr 2
      apply List.filter_eq_self.mpr
      intro m _
      simp
  · intro h0 hraw
    unfold resolveModules
    rw [if_neg h0, if_pos hraw]

/-- C6 witness: an explicit one-module list resolves to that module plus
the storage module, sorted and stdout-free. -/
theorem c6_startscan_module_resolution_witness :
    resolveModules regW "modA" "" "" =
      Except.ok ["modA", "sfp__stor_db"] ∧
    "sfp__stor_db" ∈ (["modA", "sfp__stor_db"] : List String) ∧
    List.Sorted pyStrLe ["modA", "sfp__stor_db"] ∧
    "sfp__stor_stdout" ∉ (["modA", "sfp__stor_db"] : List String) := by
  have H := (c6_startscan_module_resolution regW "modA" "" "").1
    ["modA", "sfp__stor_db"] (by rfl)
  exact ⟨by rfl, H.1, H.2.1, H.2.2.1 (by decide)⟩

/-- C6 counterexample: an explicit module list naming `sfp__stor_stdout`
twice spawns a scan whose module list still contains `sfp__stor_stdout`:
`list.remove` drops only the first occurrence, so the claim's "does not
contain sfp__stor_stdout" fails. -/
theorem c6_startscan_counterexample :
    resolveModules [] "sfp__stor_stdout,sfp__stor_stdout,modA" "" "" =
      Except.ok ["modA", "sfp__stor_db", "sfp__stor_stdout"] ∧
    "sfp__stor_stdout" ∈
      (["modA", "sfp__stor_db", "sfp__stor_stdout"] : List String) :=
  ⟨by rfl, by decide⟩
